import Mathlib

/-
Verification of the generation engine of src/main.py (a FastAPI service that
synthesizes Luhn-valid numeric identifiers from uploaded prefixes).

Embedding conventions:
  * A character of a Python string is a natural number: a digit character is
    its value 0..9, any non-digit character is some value >= 10.  A digit
    string is therefore a `List Nat` whose entries are < 10, and the code's
    `"".join(ch for ch in s if ch.isdigit())` is `List.filter (fun c => c < 10)`.
  * `secrets.randbelow(k)` at the i-th draw of a request is `r i % k` for an
    arbitrary source `r : Nat -> Nat`; the draw counter `pos` is threaded
    explicitly.  Every sequence of uniform draws is some `r`.
  * `secrets.choice([1,2,3,4,5])` is `r pos % 5 + 1`.
  * `datetime.utcnow().year` is an explicit parameter `year`.
  * Python exceptions become `Except GenError`; `ValueError` (caught by the
    bulk loop's `except ValueError: break`) is distinguished from the
    uncatchable `RuntimeError` by `GenError.isValueError`.
  * The unbounded `while to_make > 0` loop of the `/generate` endpoint is
    given explicit fuel; `none` means the loop is still running after `fuel`
    iterations.
-/

namespace ZanApi

/-- `s.startswith(p)` on digit lists. -/
def isPre : List Nat → List Nat → Bool
  | [], _ => true
  | _ :: _, [] => false
  | a :: as, b :: bs => a == b && isPre as bs

/-- The `BIN_LEN_HINT` table of src/main.py, lines 13-18, arranged the way
`infer_len` visits it: `sorted(BIN_LEN_HINT.keys(), key=len, reverse=True)`
sorts the insertion-ordered keys 34, 37, 4, 51, 52, 53, 54, 55, 2, 6011, 65
by length descending, Python's stable sort keeping insertion order inside
each length class. -/
def binLenHintSorted : List (List Nat × Nat) :=
  [([6, 0, 1, 1], 16),
   ([3, 4], 15), ([3, 7], 15),
   ([5, 1], 16), ([5, 2], 16), ([5, 3], 16), ([5, 4], 16), ([5, 5], 16),
   ([6, 5], 16),
   ([4], 16), ([2], 16)]

/-- `infer_len` of src/main.py, lines 20-24: first key (in the sorted order)
that the argument starts with wins; default 16. -/
def infer_len (bin : List Nat) : Nat :=
  match binLenHintSorted.find? (fun kv => isPre kv.1 bin) with
  | some kv => kv.2
  | none => 16

/-- `cvv_len_for_bin` of src/main.py, lines 26-27. -/
def cvv_len_for_bin (bin : List Nat) : Nat :=
  if isPre [3, 4] bin || isPre [3, 7] bin then 4 else 3

/-- The doubled-digit adjustment of `luhn_checksum` (src/main.py line 37):
`d2 if d2 < 10 else d2 - 9`. -/
def double_adjust (d : Nat) : Nat := if d * 2 < 10 then d * 2 else d * 2 - 9

/-- Elements at indices 0, 2, 4, ... of a list; `l[::2]` on a reversed list
realizes the slices `digits[-1::-2]` and (after dropping one) `digits[-2::-2]`
of src/main.py, lines 32-33. -/
def everyOther : List Nat → List Nat
  | [] => []
  | [d] => [d]
  | d :: _ :: rest => d :: everyOther rest

/-- `luhn_checksum` of src/main.py, lines 30-38: sum the digits at odd
positions from the right untouched, the digits at even positions from the
right doubled-and-adjusted, and reduce mod 10. -/
def luhn_checksum (card : List Nat) : Nat :=
  ((everyOther card.reverse).sum
    + ((everyOther (card.reverse.drop 1)).map double_adjust).sum) % 10

/-- The check-digit search of `generate_luhn` (src/main.py lines 49-51):
first d in 0..9 making the checksum of `stem ++ [d]` zero. -/
def find_check_digit (stem : List Nat) : Option Nat :=
  (List.range 10).find? (fun d => luhn_checksum (stem ++ [d]) == 0)

/-- Error kinds of the generation path.  `binTooLong` and `invalidBin` are
`ValueError` in src/main.py (caught by the bulk loop), `checkDigitFail` is
the `RuntimeError` of line 53 (not caught). -/
inductive GenError where
  | binTooLong
  | checkDigitFail
  | invalidBin
deriving DecidableEq

/-- Whether the bulk loop's `except ValueError` catches this error. -/
def GenError.isValueError : GenError → Bool
  | .checkDigitFail => false
  | _ => true

/-- The random body of `generate_luhn` (src/main.py line 46): `n` uniform
digits drawn at positions `pos, pos+1, ...` of the source. -/
def gen_body (r : Nat → Nat) (pos n : Nat) : List Nat :=
  (List.range n).map (fun i => r (pos + i) % 10)

/-- `generate_luhn` of src/main.py, lines 40-53.  Returns the full digit
list and the advanced draw position. -/
def generate_luhn (r : Nat → Nat) (pos : Nat) (bin : List Nat) :
    Except GenError (List Nat × Nat) :=
  let total_len := infer_len bin
  if total_len ≤ bin.length then .error .binTooLong
  else
    let body_len := total_len - bin.length - 1
    let stem := bin ++ gen_body r pos body_len
    match find_check_digit stem with
    | some d => .ok (stem ++ [d], pos + body_len)
    | none => .error .checkDigitFail

/-- One generated record of src/main.py's `generate_card` (lines 56-70); the
`CARD|MM|YY|CVV` line carries exactly these fields, `pan` being the part
before the first bar (the dedup key of the bulk loop). -/
structure Card where
  pan : List Nat
  expMonth : Nat
  expYear : Nat
  cvv : Nat
deriving DecidableEq

/-- `generate_card` of src/main.py, lines 56-70: clean to digits, require
length 5..12, build the Luhn-valid number, then draw month (1..12), a year
offset (1..5, added to the current year, mod 100) and the security code
(uniform on 10^(n-1) .. 10^n - 1 for n = cvv_len_for_bin). -/
def generate_card (year : Nat) (r : Nat → Nat) (pos : Nat) (raw : List Nat) :
    Except GenError (Card × Nat) :=
  let bin := raw.filter (fun ch => ch < 10)
  if 5 ≤ bin.length ∧ bin.length ≤ 12 then
    match generate_luhn r pos bin with
    | .error e => .error e
    | .ok (pan, pos1) =>
      .ok (⟨pan, r pos1 % 12 + 1,
            (year + (r (pos1 + 1) % 5 + 1)) % 100,
            r (pos1 + 2) % ((10 ^ cvv_len_for_bin bin - 1)
              - 10 ^ (cvv_len_for_bin bin - 1) + 1)
              + 10 ^ (cvv_len_for_bin bin - 1)⟩,
           pos1 + 3)
  else .error .invalidBin

/-- The per-prefix `while to_make > 0` loop of the `/generate` endpoint
(src/main.py lines 136-148), with explicit fuel: `none` means the loop has
not finished after `fuel` iterations; `some (.ok _)` that it finished
normally (`to_make` reached 0, or a `ValueError` broke out of it);
`some (.error _)` that an uncaught exception escaped. -/
def genLoop (year : Nat) (r : Nat → Nat) (b : List Nat) :
    Nat → Nat → List (List Nat) → List Card → Nat →
    Option (Except GenError (List Card × Nat))
  | 0, _, _, _, _ => none
  | fuel + 1, toMake, seen, lines, pos =>
    if toMake = 0 then some (.ok (lines, pos))
    else
      match generate_card year r pos b with
      | .error e =>
          if e.isValueError then some (.ok (lines, pos)) else some (.error e)
      | .ok (c, pos') =>
          if c.pan ∈ seen then genLoop year r b fuel toMake seen lines pos'
          else genLoop year r b fuel (toMake - 1) (c.pan :: seen)
            (lines ++ [c]) pos'

/-- The `for b in bins` driver of the `/generate` endpoint (src/main.py
lines 134-148): a fresh empty `seen` per prefix, `lines` accumulated across
prefixes, the draw position threaded through. -/
def generateBulk (year : Nat) (r : Nat → Nat) :
    List (List Nat) → Nat → Nat → List Card → Nat →
    Option (Except GenError (List Card × Nat))
  | [], _, _, lines, pos => some (.ok (lines, pos))
  | b :: rest, count, fuel, lines, pos =>
    match genLoop year r b fuel count [] lines pos with
    | none => none
    | some (.error e) => some (.error e)
    | some (.ok (lines', pos')) => generateBulk year r rest count fuel lines' pos'

/-- The `if not lines` test of src/main.py lines 150-151, which raises
`All BINs were invalid for their target lengths`. -/
def no_valid_output (lines : List Card) : Bool := lines.isEmpty

/-- Modelled from the spec: the adjustment named in the spec's closed-form
check digit (subtract 9 from doubled values exceeding 9). -/
def spec_adjust (d : Nat) : Nat := if d * 2 > 9 then d * 2 - 9 else d * 2

/-- Modelled from the spec: alternating sum over a list, the flag saying
whether the current element is doubled-and-adjusted. -/
def altSum : Bool → List Nat → Nat
  | _, [] => 0
  | true, d :: rest => spec_adjust d + altSum false rest
  | false, d :: rest => d + altSum true rest

/-- Modelled from the spec: the closed-form check digit
`(10 - (sum mod 10)) mod 10`, the sum doubling every second digit counting
from the rightmost digit (the rightmost itself doubled, since it will sit
second-from-right once the check digit is appended). -/
def checkDigit_spec (p : List Nat) : Nat := (10 - altSum true p.reverse % 10) % 10

/-- `str(n)` for a natural number: its decimal digit list, most significant
first. -/
def natDigits (n : Nat) : List Nat :=
  if n = 0 then [0] else (Nat.digits 10 n).reverse

/-- The Luhn sum a digit list contributes once one more digit is appended
after it: its rightmost digit is then second-from-right, so the digits at
even offsets from its right end are doubled-and-adjusted. -/
def sShift (p : List Nat) : Nat :=
  (everyOther (p.reverse.drop 1)).sum
    + ((everyOther p.reverse).map double_adjust).sum

/-- The record `generate_card` produces from the all-zero draw source on the
prefix 40000 (body of ten zeros, check digit 2, month 1, year 2025+1 mod 100,
security code 100). -/
def card0 : Card := ⟨[4, 0, 0, 0, 0, 0, 0, 0, 0, 0, 0, 0, 0, 0, 0, 2], 1, 26, 100⟩

/- ------------------------------------------------------------------ -/
/- Lemmas about the Luhn core.                                        -/
/- ------------------------------------------------------------------ -/

lemma isPre_append (p t : List Nat) : isPre p (p ++ t) = true := by
  induction p with
  | nil => rfl
  | cons a as ih => simp [isPre, ih]

lemma everyOther_cons (a : Nat) (l : List Nat) :
    everyOther (a :: l) = a :: everyOther (l.drop 1) := by
  cases l <;> rfl

lemma luhn_append (p : List Nat) (d : Nat) :
    luhn_checksum (p ++ [d]) = (sShift p + d) % 10 := by
  unfold luhn_checksum sShift
  rw [List.reverse_append]
  simp only [List.reverse_cons, List.reverse_nil, List.nil_append,
    List.singleton_append, everyOther_cons, List.drop_one, List.tail_cons,
    List.sum_cons]
  omega

lemma spec_adjust_eq (d : Nat) : spec_adjust d = double_adjust d := by
  unfold spec_adjust double_adjust
  split_ifs <;> omega

lemma altSum_eq (l : List Nat) :
    altSum true l
      = ((everyOther l).map double_adjust).sum + (everyOther (l.drop 1)).sum
    ∧ altSum false l
      = (everyOther l).sum + ((everyOther (l.drop 1)).map double_adjust).sum := by
  induction l with
  | nil => simp [altSum, everyOther]
  | cons a t ih =>
    constructor
    · rw [show altSum true (a :: t) = spec_adjust a + altSum false t from rfl,
        ih.2, spec_adjust_eq, everyOther_cons]
      simp only [List.drop_one, List.tail_cons, List.map_cons, List.sum_cons]
      omega
    · rw [show altSum false (a :: t) = a + altSum true t from rfl,
        ih.1, everyOther_cons]
      simp only [List.drop_one, List.tail_cons, List.sum_cons]
      omega

lemma checkDigit_spec_eq (p : List Nat) :
    checkDigit_spec p = (10 - sShift p % 10) % 10 := by
  unfold checkDigit_spec
  rw [(altSum_eq p.reverse).1]
  unfold sShift
  congr 2
  omega

lemma checkDigit_spec_lt (p : List Nat) : checkDigit_spec p < 10 := by
  rw [checkDigit_spec_eq]; omega

lemma luhn_append_eq_zero_iff (p : List Nat) (d : Nat) (hd : d < 10) :
    luhn_checksum (p ++ [d]) = 0 ↔ d = checkDigit_spec p := by
  rw [luhn_append, checkDigit_spec_eq]; omega

lemma find?_congrPred {α : Type} (l : List α) (p q : α → Bool)
    (h : ∀ x ∈ l, p x = q x) : l.find? p = l.find? q := by
  induction l with
  | nil => rfl
  | cons a t ih =>
    rw [List.find?_cons, List.find?_cons, h a (List.mem_cons_self a t)]
    cases q a
    · exact ih fun x hx => h x (List.mem_cons_of_mem a hx)
    · rfl

lemma find_check_digit_eq (p : List Nat) :
    find_check_digit p = some (checkDigit_spec p) := by
  unfold find_check_digit
  have h : ∀ d ∈ List.range 10,
      (luhn_checksum (p ++ [d]) == 0) = ((sShift p % 10 + d) % 10 == 0) := by
    intro d _
    have he : luhn_checksum (p ++ [d]) = (sShift p % 10 + d) % 10 := by
      rw [luhn_append]; omega
    rw [he]
  rw [find?_congrPred _ _ _ h, checkDigit_spec_eq]
  have h10 : sShift p % 10 < 10 := by omega
  generalize sShift p % 10 = s at h10 ⊢
  interval_cases s <;> decide

lemma gen_body_length (r : Nat → Nat) (pos n : Nat) :
    (gen_body r pos n).length = n := by
  simp [gen_body]

lemma gen_body_digits (r : Nat → Nat) (pos n : Nat) :
    ∀ x ∈ gen_body r pos n, x < 10 := by
  intro x hx
  simp only [gen_body, List.mem_map] at hx
  obtain ⟨i, _, rfl⟩ := hx
  exact Nat.mod_lt _ (by norm_num)

lemma infer_len_ge (bin : List Nat) : 15 ≤ infer_len bin := by
  unfold infer_len
  cases h : binLenHintSorted.find? (fun kv => isPre kv.1 bin) with
  | none => norm_num
  | some kv =>
    have hm := List.mem_of_find?_eq_some h
    fin_cases hm <;> norm_num

lemma generate_luhn_eval (r : Nat → Nat) (pos : Nat) (bin : List Nat)
    (h : bin.length < infer_len bin) :
    generate_luhn r pos bin =
      .ok ((bin ++ gen_body r pos (infer_len bin - bin.length - 1))
            ++ [checkDigit_spec
                  (bin ++ gen_body r pos (infer_len bin - bin.length - 1))],
           pos + (infer_len bin - bin.length - 1)) := by
  simp only [generate_luhn]
  rw [if_neg (by omega), find_check_digit_eq]

lemma luhn_stem_valid (stem : List Nat) :
    luhn_checksum (stem ++ [checkDigit_spec stem]) = 0 :=
  (luhn_append_eq_zero_iff stem _ (checkDigit_spec_lt stem)).mpr rfl

lemma cvv_len_cases (bin : List Nat) :
    cvv_len_for_bin bin = 3 ∨ cvv_len_for_bin bin = 4 := by
  unfold cvv_len_for_bin
  split_ifs <;> simp

lemma filter_digits_eq (bin : List Nat) (hd : ∀ x ∈ bin, x < 10) :
    bin.filter (fun ch => ch < 10) = bin := by
  rw [List.filter_eq_self]
  intro a ha
  exact decide_eq_true (hd a ha)

lemma generate_card_eval (year : Nat) (r : Nat → Nat) (pos : Nat)
    (bin : List Nat) (hd : ∀ x ∈ bin, x < 10)
    (h5 : 5 ≤ bin.length) (h12 : bin.length ≤ 12) :
    generate_card year r pos bin =
      .ok (⟨(bin ++ gen_body r pos (infer_len bin - bin.length - 1))
              ++ [checkDigit_spec
                    (bin ++ gen_body r pos (infer_len bin - bin.length - 1))],
            r (pos + (infer_len bin - bin.length - 1)) % 12 + 1,
            (year + (r (pos + (infer_len bin - bin.length - 1) + 1) % 5 + 1)) % 100,
            r (pos + (infer_len bin - bin.length - 1) + 2)
              % ((10 ^ cvv_len_for_bin bin - 1)
                  - 10 ^ (cvv_len_for_bin bin - 1) + 1)
              + 10 ^ (cvv_len_for_bin bin - 1)⟩,
           pos + (infer_len bin - bin.length - 1) + 3) := by
  have hlt : bin.length < infer_len bin :=
    lt_of_le_of_lt h12 (lt_of_lt_of_le (by norm_num) (infer_len_ge bin))
  simp only [generate_card, filter_digits_eq bin hd]
  rw [if_pos ⟨h5, h12⟩, generate_luhn_eval r pos bin hlt]

/-- Everything C4, C9 and C10 need about one successful `generate_card` call:
the identifier has the inferred length, extends the cleaned prefix, has digit
entries, passes Luhn revalidation, and the security code sits in
`[10^(n-1), 10^n - 1]`. -/
lemma generate_card_props (year : Nat) (r : Nat → Nat) (pos : Nat)
    (bin : List Nat) (hd : ∀ x ∈ bin, x < 10)
    (h5 : 5 ≤ bin.length) (h12 : bin.length ≤ 12) :
    ∃ c : Card, generate_card year r pos bin = .ok (c, pos + (infer_len bin - bin.length - 1) + 3)
      ∧ c.pan.length = infer_len bin
      ∧ isPre bin c.pan = true
      ∧ luhn_checksum c.pan = 0
      ∧ (∀ x ∈ c.pan, x < 10)
      ∧ 10 ^ (cvv_len_for_bin bin - 1) ≤ c.cvv
      ∧ c.cvv ≤ 10 ^ cvv_len_for_bin bin - 1 := by
  refine ⟨_, generate_card_eval year r pos bin hd h5 h12, ?_, ?_, ?_, ?_, ?_, ?_⟩
  · rw [List.length_append, List.length_append, gen_body_length]
    simp only [List.length_singleton]
    have := infer_len_ge bin
    omega
  · rw [List.append_assoc]
    exact isPre_append _ _
  · exact luhn_stem_valid _
  · intro x hx
    rcases List.mem_append.1 hx with hx' | hx'
    · rcases List.mem_append.1 hx' with hb | hb
      · exact hd x hb
      · exact gen_body_digits r pos _ x hb
    · rcases List.mem_singleton.1 hx' with rfl
      exact checkDigit_spec_lt _
  · exact Nat.le_add_left _ _
  · rcases cvv_len_cases bin with h | h <;>
      · rw [h]
        norm_num
        omega

/- ------------------------------------------------------------------ -/
/- Longest-prefix-match structure of the brand lookup.                 -/
/- ------------------------------------------------------------------ -/

lemma find?_first_is_longest (bin : List Nat) :
    ∀ l : List (List Nat × Nat),
      l.Pairwise (fun a b => b.1.length ≤ a.1.length) →
      ∀ kv0, l.find? (fun kv => isPre kv.1 bin) = some kv0 →
        kv0 ∈ l ∧ isPre kv0.1 bin = true ∧
          ∀ kv ∈ l, isPre kv.1 bin = true → kv.1.length ≤ kv0.1.length := by
  intro l
  induction l with
  | nil => intro _ kv0 h; simp [List.find?] at h
  | cons a t ih =>
    intro hp kv0 h
    rw [List.find?_cons] at h
    cases ha : isPre a.1 bin with
    | true =>
      rw [ha] at h
      injection h with h
      subst h
      refine ⟨List.mem_cons_self a t, ha, ?_⟩
      intro kv hkv _
      rcases List.mem_cons.1 hkv with rfl | hkv'
      · exact le_refl _
      · exact (List.pairwise_cons.1 hp).1 kv hkv'
    | false =>
      rw [ha] at h
      obtain ⟨hm, hpre, hmax⟩ := ih (List.pairwise_cons.1 hp).2 kv0 h
      refine ⟨List.mem_cons_of_mem a hm, hpre, ?_⟩
      intro kv hkv hkvpre
      rcases List.mem_cons.1 hkv with rfl | hkv'
      · rw [ha] at hkvpre; exact absurd hkvpre (by simp)
      · exact hmax kv hkv' hkvpre

lemma binLenHintSorted_pairwise :
    binLenHintSorted.Pairwise (fun a b => b.1.length ≤ a.1.length) := by
  decide

/- ------------------------------------------------------------------ -/
/- Claim theorems C1 - C3.                                             -/
/- ------------------------------------------------------------------ -/

/-- C1: for every digit-string prefix shorter than its inferred total length,
`generate_luhn` returns a digit string of length exactly `infer_len bin` that
starts with the prefix and whose Luhn checksum recomputes to 0; moreover, for
every digit string, the check-digit search succeeds and appending the found
digit yields checksum 0. -/
theorem generate_luhn_spec (r : Nat → Nat) (pos : Nat) (bin : List Nat)
    (hlen : bin.length < infer_len bin) (hdig : ∀ x ∈ bin, x < 10) :
    ∃ out pos', generate_luhn r pos bin = .ok (out, pos')
      ∧ out.length = infer_len bin
      ∧ isPre bin out = true
      ∧ luhn_checksum out = 0
      ∧ (∀ x ∈ out, x < 10)
      ∧ ∀ p : List Nat, ∃ d, d < 10 ∧ find_check_digit p = some d
          ∧ luhn_checksum (p ++ [d]) = 0 := by
  refine ⟨_, _, generate_luhn_eval r pos bin hlen, ?_, ?_, ?_, ?_, ?_⟩
  · rw [List.length_append, List.length_append, gen_body_length]
    simp only [List.length_singleton]
    omega
  · rw [List.append_assoc]
    exact isPre_append _ _
  · exact luhn_stem_valid _
  · intro x hx
    rcases List.mem_append.1 hx with hx' | hx'
    · rcases List.mem_append.1 hx' with hb | hb
      · exact hdig x hb
      · exact gen_body_digits r pos _ x hb
    · rcases List.mem_singleton.1 hx' with rfl
      exact checkDigit_spec_lt _
  · intro p
    exact ⟨checkDigit_spec p, checkDigit_spec_lt p, find_check_digit_eq p,
      luhn_stem_valid p⟩

theorem generate_luhn_spec_witness :
    (([4, 0, 0, 0, 0] : List Nat).length < infer_len [4, 0, 0, 0, 0])
    ∧ ∃ out pos', generate_luhn (fun _ => 0) 0 [4, 0, 0, 0, 0] = .ok (out, pos')
        ∧ out.length = infer_len [4, 0, 0, 0, 0]
        ∧ isPre [4, 0, 0, 0, 0] out = true
        ∧ luhn_checksum out = 0
        ∧ (∀ x ∈ out, x < 10)
        ∧ ∀ p : List Nat, ∃ d, d < 10 ∧ find_check_digit p = some d
            ∧ luhn_checksum (p ++ [d]) = 0 :=
  ⟨by decide, generate_luhn_spec (fun _ => 0) 0 [4, 0, 0, 0, 0]
    (by decide) (by decide)⟩

/-- C2: for every digit string, the check digit `generate_luhn` searches for
exists, is unique among digits, and equals the closed-form value
`(10 - (sum mod 10)) mod 10` with the sum doubling every second digit from
the right: the search-based and closed-form formulations agree on all
inputs. -/
theorem check_digit_search_closed_form (p : List Nat) :
    find_check_digit p = some (checkDigit_spec p)
    ∧ checkDigit_spec p < 10
    ∧ ∀ d, d < 10 → (luhn_checksum (p ++ [d]) = 0 ↔ d = checkDigit_spec p) :=
  ⟨find_check_digit_eq p, checkDigit_spec_lt p,
    fun d hd => luhn_append_eq_zero_iff p d hd⟩

/-- C3: the brand lookup is a longest-prefix-match over the sorted rule table
with default total length 16, and takes the spec's concrete values:
totalLength 4111 = 16, totalLength 34 = 15, totalLength 99 = 16 (default),
securityCodeLength 37 = 4, securityCodeLength 4111 = 3. -/
theorem infer_len_longest_match_and_values :
    (∀ bin : List Nat,
      (∃ kv, kv ∈ binLenHintSorted ∧ isPre kv.1 bin = true
        ∧ infer_len bin = kv.2
        ∧ ∀ kv' ∈ binLenHintSorted, isPre kv'.1 bin = true →
            kv'.1.length ≤ kv.1.length)
      ∨ ((∀ kv ∈ binLenHintSorted, isPre kv.1 bin = false)
          ∧ infer_len bin = 16))
    ∧ infer_len [4, 1, 1, 1] = 16
    ∧ infer_len [3, 4] = 15
    ∧ infer_len [9, 9] = 16
    ∧ cvv_len_for_bin [3, 7] = 4
    ∧ cvv_len_for_bin [4, 1, 1, 1] = 3 := by
  refine ⟨?_, by decide, by decide, by decide, by decide, by decide⟩
  intro bin
  cases h : binLenHintSorted.find? (fun kv => isPre kv.1 bin) with
  | none =>
    right
    constructor
    · intro kv hkv
      have := List.find?_eq_none.1 h kv hkv
      simpa using this
    · unfold infer_len
      rw [h]
  | some kv0 =>
    left
    obtain ⟨hm, hpre, hmax⟩ :=
      find?_first_is_longest bin binLenHintSorted binLenHintSorted_pairwise kv0 h
    refine ⟨kv0, hm, hpre, ?_, hmax⟩
    unfold infer_len
    rw [h]

/- ------------------------------------------------------------------ -/
/- Claim theorems C4 - C6.                                             -/
/- ------------------------------------------------------------------ -/

/-- C4 counterexample: assembling a card for the bare prefix 4111 does not
succeed: the cleaned prefix has 4 digits and the 5..12 length gate of
`generate_card` rejects it before any Luhn work happens. -/
theorem four_digit_bin_rejected :
    generate_card 2025 (fun _ => 0) 0 [4, 1, 1, 1] = .error .invalidBin := rfl

/-- C4 (amended): assembling a card for the bare prefix 4111 always fails —
for every year, random source and draw position — with the
invalid-BIN-length error, its cleaned form having only 4 digits; while for
the 5-digit prefix 41111 assembly always succeeds and yields a 16-digit
identifier that starts with 41111, revalidates under Luhn, and carries a
3-digit security code. -/
theorem generate_card_visa_41111 :
    (∀ (year : Nat) (r : Nat → Nat) (pos : Nat),
       generate_card year r pos [4, 1, 1, 1] = .error .invalidBin)
    ∧ (∀ (year : Nat) (r : Nat → Nat) (pos : Nat),
       ∃ c pos', generate_card year r pos [4, 1, 1, 1, 1] = .ok (c, pos')
         ∧ c.pan.length = 16
         ∧ isPre [4, 1, 1, 1, 1] c.pan = true
         ∧ luhn_checksum c.pan = 0
         ∧ (∀ x ∈ c.pan, x < 10)
         ∧ 100 ≤ c.cvv ∧ c.cvv ≤ 999) := by
  constructor
  · intro year r pos
    rfl
  · intro year r pos
    obtain ⟨c, hok, hlen, hpre, hluhn, hdig, hlo, hhi⟩ :=
      generate_card_props year r pos [4, 1, 1, 1, 1] (by decide) (by decide)
        (by decide)
    have h16 : infer_len [4, 1, 1, 1, 1] = 16 := by decide
    have h3 : cvv_len_for_bin [4, 1, 1, 1, 1] = 3 := by decide
    rw [h3] at hlo hhi
    norm_num at hlo hhi
    exact ⟨c, _, hok, by rw [hlen, h16], hpre, hluhn, hdig, hlo, hhi⟩

/-- C5 counterexample: assembling for the 15-digit prefix 371234567890123
fails, but with the invalid-BIN-length error of `generate_card` (its 5..12
check fires first), not with the too-long-for-target-length error the claim
names. -/
theorem amex_15_digit_rejected_kind :
    generate_card 2025 (fun _ => 0) 0
        [3, 7, 1, 2, 3, 4, 5, 6, 7, 8, 9, 0, 1, 2, 3] = .error .invalidBin
    ∧ GenError.invalidBin ≠ GenError.binTooLong :=
  ⟨rfl, by decide⟩

/-- C5 (amended): assembling a card for 371234567890123 always fails, and the
failure is the BIN-must-be-5-to-12-digits rejection: the 15-digit prefix never
reaches `generate_luhn`, whose too-long-for-target-length branch is the one
the claim describes. -/
theorem amex_15_digit_rejected (year : Nat) (r : Nat → Nat) (pos : Nat) :
    generate_card year r pos [3, 7, 1, 2, 3, 4, 5, 6, 7, 8, 9, 0, 1, 2, 3]
      = .error .invalidBin := rfl

lemma natDigits_three (n : Nat) (hlo : 100 ≤ n) (hhi : n ≤ 999) :
    natDigits n = [n / 100, n / 10 % 10, n % 10] := by
  unfold natDigits
  rw [if_neg (by omega)]
  rw [Nat.digits_def' (by norm_num : (1 : Nat) < 10) (by omega : 0 < n),
    Nat.digits_def' (by norm_num : (1 : Nat) < 10) (by omega : 0 < n / 10),
    Nat.digits_def' (by norm_num : (1 : Nat) < 10) (by omega : 0 < n / 10 / 10)]
  have h0 : n / 10 / 10 / 10 = 0 := by omega
  rw [h0, Nat.digits_zero]
  have h1 : n / 10 / 10 % 10 = n / 100 := by omega
  simp [h1]

lemma generate_card_cvv_bounds (year : Nat) (r : Nat → Nat) (pos : Nat)
    (bin : List Nat) (c : Card) (pos' : Nat) (hd : ∀ x ∈ bin, x < 10)
    (h5 : 5 ≤ bin.length) (h12 : bin.length ≤ 12)
    (hok : generate_card year r pos bin = .ok (c, pos')) :
    10 ^ (cvv_len_for_bin bin - 1) ≤ c.cvv
      ∧ c.cvv ≤ 10 ^ cvv_len_for_bin bin - 1 := by
  rw [generate_card_eval year r pos bin hd h5 h12] at hok
  injection hok with h
  injection h with hc hp
  subst hc
  constructor
  · exact Nat.le_add_left _ _
  · rcases cvv_len_cases bin with h | h <;>
      · show r _ % _ + _ ≤ _
        rw [h]
        norm_num
        omega

/-- C6 counterexample: for the accepted prefix 41111 no outcome of the random
source produces the security-code string 012 (a 3-digit string with leading
zero): the code draws the security code uniformly on 100..999, so its decimal
rendering never starts with 0. -/
theorem cvv_leading_zero_impossible :
    ¬ ∃ (year : Nat) (r : Nat → Nat) (pos : Nat) (c : Card) (pos' : Nat),
        generate_card year r pos [4, 1, 1, 1, 1] = .ok (c, pos')
        ∧ natDigits c.cvv = [0, 1, 2] := by
  rintro ⟨year, r, pos, c, pos', hok, hdigits⟩
  obtain ⟨hlo, hhi⟩ :=
    generate_card_cvv_bounds year r pos [4, 1, 1, 1, 1] c pos'
      (by decide) (by decide) (by decide) hok
  have h3 : cvv_len_for_bin [4, 1, 1, 1, 1] = 3 := by decide
  rw [h3] at hlo hhi
  norm_num at hlo hhi
  rw [natDigits_three c.cvv hlo hhi] at hdigits
  simp only [List.cons.injEq, and_true] at hdigits
  omega

/-- C6 (amended): the security code of an accepted prefix is drawn uniformly
on `10^(n-1) .. 10^n - 1` for `n = cvv_len_for_bin`: every value in that
range (i.e. every n-digit string with nonzero first digit) is a possible
outcome, and no value outside it ever occurs — in particular no
leading-zero string. -/
theorem cvv_range_exact (bin : List Nat) (hd : ∀ x ∈ bin, x < 10)
    (h5 : 5 ≤ bin.length) (h12 : bin.length ≤ 12) (v : Nat)
    (hlo : 10 ^ (cvv_len_for_bin bin - 1) ≤ v)
    (hhi : v ≤ 10 ^ cvv_len_for_bin bin - 1) :
    (∃ (r : Nat → Nat) (c : Card) (pos' : Nat),
       generate_card 2025 r 0 bin = .ok (c, pos') ∧ c.cvv = v)
    ∧ (∀ (year : Nat) (r : Nat → Nat) (pos : Nat) (c : Card) (pos' : Nat),
       generate_card year r pos bin = .ok (c, pos') →
       10 ^ (cvv_len_for_bin bin - 1) ≤ c.cvv
         ∧ c.cvv ≤ 10 ^ cvv_len_for_bin bin - 1) := by
  constructor
  · refine ⟨fun i =>
      if i = (infer_len bin - bin.length - 1) + 2
      then v - 10 ^ (cvv_len_for_bin bin - 1) else 0, _, _,
      generate_card_eval 2025 _ 0 bin hd h5 h12, ?_⟩
    show (if 0 + (infer_len bin - bin.length - 1) + 2
            = (infer_len bin - bin.length - 1) + 2
          then v - 10 ^ (cvv_len_for_bin bin - 1) else 0)
        % ((10 ^ cvv_len_for_bin bin - 1) - 10 ^ (cvv_len_for_bin bin - 1) + 1)
        + 10 ^ (cvv_len_for_bin bin - 1) = v
    rw [if_pos (by omega)]
    rcases cvv_len_cases bin with h | h <;>
      · rw [h] at hlo hhi ⊢
        norm_num at hlo hhi ⊢
        omega
  · intro year r pos c pos' hok
    exact generate_card_cvv_bounds year r pos bin c pos' hd h5 h12 hok

theorem cvv_range_exact_witness :
    ((∀ x ∈ ([4, 1, 1, 1, 1] : List Nat), x < 10)
      ∧ 5 ≤ ([4, 1, 1, 1, 1] : List Nat).length
      ∧ ([4, 1, 1, 1, 1] : List Nat).length ≤ 12
      ∧ 10 ^ (cvv_len_for_bin [4, 1, 1, 1, 1] - 1) ≤ 123
      ∧ 123 ≤ 10 ^ cvv_len_for_bin [4, 1, 1, 1, 1] - 1)
    ∧ ((∃ (r : Nat → Nat) (c : Card) (pos' : Nat),
         generate_card 2025 r 0 [4, 1, 1, 1, 1] = .ok (c, pos') ∧ c.cvv = 123)
      ∧ (∀ (year : Nat) (r : Nat → Nat) (pos : Nat) (c : Card) (pos' : Nat),
         generate_card year r pos [4, 1, 1, 1, 1] = .ok (c, pos') →
         10 ^ (cvv_len_for_bin [4, 1, 1, 1, 1] - 1) ≤ c.cvv
           ∧ c.cvv ≤ 10 ^ cvv_len_for_bin [4, 1, 1, 1, 1] - 1)) :=
  ⟨⟨by decide, by decide, by decide, by decide, by decide⟩,
   cvv_range_exact [4, 1, 1, 1, 1] (by decide) (by decide) (by decide) 123
     (by decide) (by decide)⟩

/- ------------------------------------------------------------------ -/
/- Claim theorems C7 - C8.                                             -/
/- ------------------------------------------------------------------ -/

/-- C7 counterexample: on the all-zero outcome of the random source and the
accepted prefix 40000, the body `generate_luhn` uses is ten zeros — its first
digit is 0 and it begins with four identical consecutive digits — and
`generate_luhn` returns it unfiltered: no plausibility rejection exists in the
code. -/
theorem plausible_mode_counterexample :
    generate_luhn (fun _ => 0) 0 [4, 0, 0, 0, 0]
      = .ok ([4, 0, 0, 0, 0, 0, 0, 0, 0, 0, 0, 0, 0, 0, 0, 2], 10)
    ∧ gen_body (fun _ => 0) 0 10 = [0, 0, 0, 0, 0, 0, 0, 0, 0, 0]
    ∧ ([0, 0, 0, 0, 0, 0, 0, 0, 0, 0] : List Nat).headD 1 = 0
    ∧ isPre [0, 0, 0, 0] [0, 0, 0, 0, 0, 0, 0, 0, 0, 0] = true :=
  ⟨rfl, rfl, rfl, rfl⟩

/-- C7 (amended): body synthesis applies no plausibility constraint at all —
it is one unconstrained uniform draw per digit, so every digit sequence of
the required length (leading zero, long runs and all) is a possible body. -/
theorem body_unconstrained (l : List Nat) (h : ∀ x ∈ l, x < 10) :
    ∃ r : Nat → Nat, gen_body r 0 l.length = l := by
  refine ⟨fun i => l.getD i 0, ?_⟩
  unfold gen_body
  apply List.ext_getElem
  · simp
  · intro i h1 h2
    simp only [List.getElem_map, List.getElem_range, Nat.zero_add]
    rw [List.getD_eq_getElem l 0 h2]
    exact Nat.mod_eq_of_lt (h _ (List.getElem_mem h2))

theorem body_unconstrained_witness :
    (∀ x ∈ ([0, 1, 2, 3] : List Nat), x < 10)
    ∧ ∃ r : Nat → Nat,
        gen_body r 0 ([0, 1, 2, 3] : List Nat).length = [0, 1, 2, 3] :=
  ⟨by decide, body_unconstrained [0, 1, 2, 3] (by decide)⟩

lemma gen_body_zero (pos n : Nat) :
    gen_body (fun _ => 0) pos n = List.replicate n 0 := by
  unfold gen_body
  rw [List.eq_replicate_iff]
  refine ⟨by simp, ?_⟩
  intro b hb
  simp only [List.mem_map, List.mem_range] at hb
  obtain ⟨i, _, rfl⟩ := hb
  rfl

/-- One call of `generate_card` on the all-zero source always yields the same
record `card0`, whatever the draw position: the stuck state of the dedup
loop. -/
lemma zero_card_eval (pos : Nat) :
    generate_card 2025 (fun _ => 0) pos [4, 0, 0, 0, 0]
      = .ok (card0, pos + 13) := by
  rw [generate_card_eval 2025 (fun _ => 0) pos [4, 0, 0, 0, 0]
    (by decide) (by decide) (by decide)]
  have h16 : infer_len [4, 0, 0, 0, 0] = 16 := by decide
  have hc3 : cvv_len_for_bin [4, 0, 0, 0, 0] = 3 := by decide
  have hlen5 : ([4, 0, 0, 0, 0] : List Nat).length = 5 := by decide
  rw [h16, hc3, hlen5]
  norm_num
  rw [gen_body_zero]
  decide

lemma genLoop_zero_stuck (fuel : Nat) : ∀ pos : Nat,
    genLoop 2025 (fun _ => 0) [4, 0, 0, 0, 0] fuel 1
      [card0.pan] [card0] pos = none := by
  induction fuel with
  | zero => intro pos; rfl
  | succ n ih =>
    intro pos
    simp only [genLoop]
    rw [if_neg (by norm_num), zero_card_eval pos]
    simp only []
    rw [if_pos (List.mem_singleton_self _)]
    exact ih (pos + 13)

lemma genLoop_zero_runs_forever (fuel pos : Nat) :
    genLoop 2025 (fun _ => 0) [4, 0, 0, 0, 0] fuel 2 [] [] pos = none := by
  cases fuel with
  | zero => rfl
  | succ n =>
    simp only [genLoop]
    rw [if_neg (by norm_num), zero_card_eval pos]
    simp only []
    rw [if_neg (List.not_mem_nil _)]
    simpa using genLoop_zero_stuck n (pos + 13)

/-- C8 (amended): the per-prefix collect-until-distinct loop of bulk
generation has no iteration cap and no fallback: it only stops when `count`
distinct identifiers have been collected (or a ValueError breaks it), so it
does not terminate for every outcome of the random source — on the constant
all-zero source with count 2 it runs forever, every finite fuel leaving it
unfinished. -/
theorem bulk_loop_uncapped (fuel pos : Nat) :
    genLoop 2025 (fun _ => 0) [4, 0, 0, 0, 0] fuel 2 [] [] pos = none :=
  genLoop_zero_runs_forever fuel pos

/-- C8 counterexample: for prefix 40000, requested count 2 and the constant
all-zero random source, no amount of fuel makes the per-prefix loop return:
it is not capped and does not terminate for every prefix list and count. -/
theorem bulk_loop_nonterminating :
    ¬ ∃ (fuel : Nat) (res : Except GenError (List Card × Nat)),
        genLoop 2025 (fun _ => 0) [4, 0, 0, 0, 0] fuel 2 [] [] 0 = some res := by
  rintro ⟨fuel, res, h⟩
  rw [genLoop_zero_runs_forever fuel 0] at h
  exact Option.noConfusion h

/- ------------------------------------------------------------------ -/
/- Claim theorems C9 - C10.                                            -/
/- ------------------------------------------------------------------ -/

/-- The invariant of the per-prefix dedup loop: a normal return appends
exactly `toMake` new records to the accumulator, their identifiers pairwise
distinct, none already seen, each extending the prefix with the inferred
length and a valid Luhn checksum. -/
lemma genLoop_ok_props (year : Nat) (r : Nat → Nat) (b : List Nat)
    (hd : ∀ x ∈ b, x < 10) (h5 : 5 ≤ b.length) (h12 : b.length ≤ 12) :
    ∀ (fuel toMake : Nat) (seen : List (List Nat)) (lines out : List Card)
      (pos pos' : Nat),
      genLoop year r b fuel toMake seen lines pos = some (.ok (out, pos')) →
      ∃ fresh, out = lines ++ fresh ∧ fresh.length = toMake
        ∧ (fresh.map Card.pan).Nodup
        ∧ (∀ c ∈ fresh, c.pan ∉ seen)
        ∧ (∀ c ∈ fresh, isPre b c.pan = true ∧ c.pan.length = infer_len b
            ∧ luhn_checksum c.pan = 0) := by
  intro fuel
  induction fuel with
  | zero =>
    intro toMake seen lines out pos pos' h
    exact absurd h (by simp [genLoop])
  | succ n ih =>
    intro toMake seen lines out pos pos' h
    by_cases ht : toMake = 0
    · subst ht
      have h0 : genLoop year r b (n + 1) 0 seen lines pos
          = some (.ok (lines, pos)) := by
        simp [genLoop]
      rw [h0] at h
      obtain ⟨h1, _⟩ : lines = out ∧ pos = pos' := by simpa using h
      exact ⟨[], by rw [List.append_nil]; exact h1.symm, rfl,
        List.nodup_nil, by simp, by simp⟩
    · obtain ⟨c, hok, hlen, hpre, hluhn, hdig, _, _⟩ :=
        generate_card_props year r pos b hd h5 h12
      by_cases hin : c.pan ∈ seen
      · have h0 : genLoop year r b (n + 1) toMake seen lines pos
            = genLoop year r b n toMake seen lines
                (pos + (infer_len b - b.length - 1) + 3) := by
          simp [genLoop, ht, hok, hin]
        rw [h0] at h
        exact ih toMake seen lines out _ pos' h
      · have h0 : genLoop year r b (n + 1) toMake seen lines pos
            = genLoop year r b n (toMake - 1) (c.pan :: seen) (lines ++ [c])
                (pos + (infer_len b - b.length - 1) + 3) := by
          simp [genLoop, ht, hok, hin]
        rw [h0] at h
        obtain ⟨fresh', heq, hlen', hnodup', hseen', hprops'⟩ :=
          ih (toMake - 1) (c.pan :: seen) (lines ++ [c]) out _ pos' h
        refine ⟨c :: fresh', ?_, ?_, ?_, ?_, ?_⟩
        · rw [heq, List.append_assoc, List.singleton_append]
        · simp only [List.length_cons, hlen']
          omega
        · rw [List.map_cons, List.nodup_cons]
          refine ⟨?_, hnodup'⟩
          intro hmem
          obtain ⟨c', hc', hcpan⟩ := List.mem_map.1 hmem
          exact (hseen' c' hc') (hcpan ▸ List.mem_cons_self _ _)
        · intro x hx
          rcases List.mem_cons.1 hx with rfl | hx'
          · exact hin
          · exact fun hmem => hseen' x hx' (List.mem_cons_of_mem _ hmem)
        · intro x hx
          rcases List.mem_cons.1 hx with rfl | hx'
          · exact ⟨hpre, hlen, hluhn⟩
          · exact hprops' x hx'

/-- C9: bulk generation over the single prefix 400000 yields, whenever its
collect loop returns, exactly `count` records with pairwise-distinct
identifiers all extending 400000; and deduplication is scoped per prefix —
the seen-set restarts empty for each prefix, so a run over the two prefixes
40000 and 400001 can emit the same identifier twice across prefixes. -/
theorem bulk_single_prefix_distinct :
    (∀ (year : Nat) (r : Nat → Nat) (fuel count pos pos' : Nat)
       (lines : List Card),
       genLoop year r [4, 0, 0, 0, 0, 0] fuel count [] [] pos
         = some (.ok (lines, pos')) →
       lines.length = count
         ∧ (lines.map Card.pan).Nodup
         ∧ ∀ c ∈ lines, isPre [4, 0, 0, 0, 0, 0] c.pan = true)
    ∧ ∃ (out : List Card) (pos' : Nat),
        generateBulk 2025 (fun i => if i = 0 then 1 else 0)
          [[4, 0, 0, 0, 0], [4, 0, 0, 0, 0, 1]] 1 2 [] 0
          = some (.ok (out, pos'))
        ∧ out.length = 2 ∧ ¬ (out.map Card.pan).Nodup := by
  constructor
  · intro year r fuel count pos pos' lines h
    obtain ⟨fresh, heq, hlen, hnodup, _, hprops⟩ :=
      genLoop_ok_props year r [4, 0, 0, 0, 0, 0] (by decide) (by decide)
        (by decide) fuel count [] [] lines pos pos' h
    rw [List.nil_append] at heq
    subst heq
    exact ⟨hlen, hnodup, fun c hc => (hprops c hc).1⟩
  · refine ⟨[⟨[4, 0, 0, 0, 0, 1, 0, 0, 0, 0, 0, 0, 0, 0, 0, 1], 1, 26, 100⟩,
      ⟨[4, 0, 0, 0, 0, 1, 0, 0, 0, 0, 0, 0, 0, 0, 0, 1], 1, 26, 100⟩], 25,
      rfl, rfl, by decide⟩

lemma genLoop_extends (year : Nat) (r : Nat → Nat) (b : List Nat) :
    ∀ (fuel toMake : Nat) (seen : List (List Nat)) (lines out : List Card)
      (pos pos' : Nat),
      genLoop year r b fuel toMake seen lines pos = some (.ok (out, pos')) →
      ∃ t, out = lines ++ t := by
  intro fuel
  induction fuel with
  | zero =>
    intro toMake seen lines out pos pos' h
    exact absurd h (by simp [genLoop])
  | succ n ih =>
    intro toMake seen lines out pos pos' h
    by_cases ht : toMake = 0
    · have h0 : genLoop year r b (n + 1) toMake seen lines pos
          = some (.ok (lines, pos)) := by
        simp [genLoop, ht]
      rw [h0] at h
      obtain ⟨h1, _⟩ : lines = out ∧ pos = pos' := by simpa using h
      exact ⟨[], by rw [List.append_nil]; exact h1.symm⟩
    · cases hgc : generate_card year r pos b with
      | error e =>
        cases hve : e.isValueError with
        | true =>
          have h0 : genLoop year r b (n + 1) toMake seen lines pos
              = some (.ok (lines, pos)) := by
            simp [genLoop, ht, hgc, hve]
          rw [h0] at h
          obtain ⟨h1, _⟩ : lines = out ∧ pos = pos' := by simpa using h
          exact ⟨[], by rw [List.append_nil]; exact h1.symm⟩
        | false =>
          have h0 : genLoop year r b (n + 1) toMake seen lines pos
              = some (.error e) := by
            simp [genLoop, ht, hgc, hve]
          rw [h0] at h
          simp at h
      | ok cp =>
        obtain ⟨c, posn⟩ := cp
        by_cases hin : c.pan ∈ seen
        · have h0 : genLoop year r b (n + 1) toMake seen lines pos
              = genLoop year r b n toMake seen lines posn := by
            simp [genLoop, ht, hgc, hin]
          rw [h0] at h
          exact ih _ _ _ _ _ _ h
        · have h0 : genLoop year r b (n + 1) toMake seen lines pos
              = genLoop year r b n (toMake - 1) (c.pan :: seen) (lines ++ [c])
                  posn := by
            simp [genLoop, ht, hgc, hin]
          rw [h0] at h
          obtain ⟨t, hts⟩ := ih _ _ _ _ _ _ h
          exact ⟨c :: t, by rw [hts, List.append_assoc, List.singleton_append]⟩

lemma generateBulk_extends (year : Nat) (r : Nat → Nat) :
    ∀ (bins : List (List Nat)) (count fuel : Nat) (lines out : List Card)
      (pos pos' : Nat),
      generateBulk year r bins count fuel lines pos = some (.ok (out, pos')) →
      ∃ t, out = lines ++ t := by
  intro bins
  induction bins with
  | nil =>
    intro count fuel lines out pos pos' h
    simp only [generateBulk, Option.some.injEq, Except.ok.injEq,
      Prod.mk.injEq] at h
    exact ⟨[], by simp [h.1]⟩
  | cons b rest ih =>
    intro count fuel lines out pos pos' h
    simp only [generateBulk] at h
    cases hgl : genLoop year r b fuel count [] lines pos with
    | none => rw [hgl] at h; simp at h
    | some res =>
      rw [hgl] at h
      cases res with
      | error e => simp at h
      | ok lp =>
        obtain ⟨lines1, pos1⟩ := lp
        obtain ⟨t1, ht1⟩ := genLoop_extends year r b fuel count [] lines lines1 pos pos1 hgl
        obtain ⟨t2, ht2⟩ := ih count fuel lines1 out pos1 pos' h
        exact ⟨t1 ++ t2, by rw [ht2, ht1, List.append_assoc]⟩

/-- C10 (amended): for every cleaned prefix (digits, length 5..12) the
inferred length is at least 15 and strictly exceeds the prefix length, so
`generate_luhn`'s too-long error and `generate_card`'s length check never
fire and assembly always succeeds; consequently the bulk endpoint's
all-BINs-invalid failure is unreachable whenever the cleaned BIN list is
non-empty AND the requested per-BIN count is at least 1 (with count 0 the
loop body never runs and the failure fires even for valid BINs). -/
theorem cleaned_bins_never_fail :
    (∀ bin : List Nat, 5 ≤ bin.length → bin.length ≤ 12 →
       15 ≤ infer_len bin ∧ bin.length < infer_len bin)
    ∧ (∀ (year : Nat) (r : Nat → Nat) (pos : Nat) (bin : List Nat),
         (∀ x ∈ bin, x < 10) → 5 ≤ bin.length → bin.length ≤ 12 →
         ∃ c pos', generate_card year r pos bin = .ok (c, pos'))
    ∧ (∀ (year : Nat) (r : Nat → Nat) (b : List Nat) (bins : List (List Nat))
         (count fuel pos pos' : Nat) (lines : List Card),
         (∀ x ∈ b, x < 10) → 5 ≤ b.length → b.length ≤ 12 → 1 ≤ count →
         generateBulk year r (b :: bins) count fuel [] pos
           = some (.ok (lines, pos')) →
         lines ≠ [] ∧ no_valid_output lines = false) := by
  refine ⟨?_, ?_, ?_⟩
  · intro bin h5 h12
    have := infer_len_ge bin
    omega
  · intro year r pos bin hd h5 h12
    obtain ⟨c, hok, _⟩ := generate_card_props year r pos bin hd h5 h12
    exact ⟨c, _, hok⟩
  · intro year r b bins count fuel pos pos' lines hd h5 h12 hcount hbulk
    simp only [generateBulk] at hbulk
    cases hgl : genLoop year r b fuel count [] [] pos with
    | none => rw [hgl] at hbulk; simp at hbulk
    | some res =>
      rw [hgl] at hbulk
      cases res with
      | error e => simp at hbulk
      | ok lp =>
        obtain ⟨lines1, pos1⟩ := lp
        obtain ⟨fresh, heq, hlen, _⟩ :=
          genLoop_ok_props year r b hd h5 h12 fuel count [] [] lines1 pos pos1 hgl
        obtain ⟨t, ht⟩ :=
          generateBulk_extends year r bins count fuel lines1 lines pos1 pos' hbulk
        have hne : lines ≠ [] := by
          rw [ht, heq, List.nil_append]
          intro hemp
          have : fresh.length + t.length = 0 := by
            simpa [List.length_append] using congrArg List.length hemp
          omega
        refine ⟨hne, ?_⟩
        cases lines with
        | nil => exact absurd rfl hne
        | cons a l => rfl

/-- C10 counterexample: with the non-empty cleaned BIN list [40000] but a
requested count of 0, the bulk loop body never runs, zero records are
produced, and the all-BINs-invalid failure branch fires — the failure is
reachable with a non-empty BIN list. -/
theorem bulk_zero_count_empty :
    generateBulk 2025 (fun _ => 0) [[4, 0, 0, 0, 0]] 0 1 [] 0
      = some (.ok ([], 0))
    ∧ no_valid_output [] = true :=
  ⟨rfl, rfl⟩

end ZanApi
